import Mathlib

/-!
Shallow embedding of the resonance-agent repository pieces under verification:
the retry-with-backoff helper (`retryWithBackoff.ts`), the heuristic tool-call
enforcer (`toolCallEnforcer.ts`), and the chat sidebar / checkpoint / approval
logic visible in `react-types.d.ts`.  JavaScript machine numbers that matter
here are small naturals, modelled as `Nat`; `async` control flow is modelled by
deterministic state passing: an operation is a function from its call index to
an `Except` outcome, and the retry loop returns a trace recording the final
outcome, the list of sleeps performed, and the number of calls made.
-/

/-- Model of the untyped JavaScript error values inspected by
`isRetryableError`: an optional numeric `status` field, an optional nested
`response.status` field, and an optional string `message` field.  `none`
models an absent field. -/
structure JsError where
  status : Option Nat
  responseStatus : Option Nat
  message : Option String
deriving DecidableEq, Repr

/-- Whether `pat` occurs at the start of `s` (character lists). -/
def startsWithChars : List Char → List Char → Bool
  | [], _ => true
  | _ :: _, [] => false
  | a :: as, b :: bs => a == b && startsWithChars as bs

/-- Whether `pat` occurs somewhere in `s` (character lists). -/
def charsContain (pat : List Char) : List Char → Bool
  | [] => startsWithChars pat []
  | c :: rest => startsWithChars pat (c :: rest) || charsContain pat rest

/-- JavaScript `String.prototype.includes`: `pat` occurs as a contiguous
substring of `s` (the empty pattern occurs in every string). -/
def strIncludes (s pat : String) : Bool :=
  charsContain pat.data s.data

/-- Model of the (merged) retry configuration `Required<RetryConfig>` from
`retryWithBackoff.ts`. -/
structure RetryConfig where
  maxRetries : Nat
  initialDelayMs : Nat
  maxDelayMs : Nat
  backoffMultiplier : Nat
  retryableStatusCodes : List Nat
deriving DecidableEq, Repr

/-- The `defaultRetryConfig` constant from `retryWithBackoff.ts`:
3 retries, 1000ms initial delay, 10000ms cap, multiplier 2,
retryable status codes 429, 503, 504. -/
def defaultRetryConfig : RetryConfig :=
  ⟨3, 1000, 10000, 2, [429, 503, 504]⟩

/-- The `isRetryableError` function from `retryWithBackoff.ts`.  Each guard
mirrors a JavaScript truthiness test: `error?.status && codes.includes(...)`
requires the field to be present and non-zero (0 is falsy) before membership
is consulted, `error?.response?.status` likewise, and the message guard
requires a present, non-empty string message containing the substring
"429". -/
def isRetryableError (e : JsError) (retryableStatusCodes : List Nat) : Bool :=
  (match e.status with
   | some n => n != 0 && retryableStatusCodes.contains n
   | none => false) ||
  (match e.responseStatus with
   | some n => n != 0 && retryableStatusCodes.contains n
   | none => false) ||
  (match e.message with
   | some m => m != "" && strIncludes m "429"
   | none => false)

/-- Execution trace of `retryWithExponentialBackoff`: the final outcome, the
durations passed to `sleep` in order, and how many times the wrapped
operation was invoked. -/
structure RetryTrace (T : Type) where
  result : Except JsError T
  sleeps : List Nat
  calls : Nat
deriving Repr

/-- The `for (let attempt = 0; attempt <= maxRetries; attempt++)` loop body of
`retryWithExponentialBackoff`, recursing on the number of attempts remaining
after the current one (`remaining = maxRetries - attempt`).  On the last
attempt a failure breaks out of the loop and the last error is thrown; on
earlier attempts a non-retryable error is thrown at once, and a retryable one
sleeps `delayMs` and continues with
`delayMs = min (delayMs * backoffMultiplier) maxDelayMs`. -/
def retryGo {T : Type} (op : Nat → Except JsError T) (cfg : RetryConfig) :
    Nat → Nat → Nat → RetryTrace T
  | attempt, _, 0 =>
    match op attempt with
    | Except.ok v => ⟨Except.ok v, [], 1⟩
    | Except.error e => ⟨Except.error e, [], 1⟩
  | attempt, delayMs, remaining + 1 =>
    match op attempt with
    | Except.ok v => ⟨Except.ok v, [], 1⟩
    | Except.error e =>
      if isRetryableError e cfg.retryableStatusCodes then
        let r := retryGo op cfg (attempt + 1)
          (min (delayMs * cfg.backoffMultiplier) cfg.maxDelayMs) remaining
        ⟨r.result, delayMs :: r.sleeps, r.calls + 1⟩
      else ⟨Except.error e, [], 1⟩

/-- The `retryWithExponentialBackoff` function from `retryWithBackoff.ts`,
with the async operation modelled as a function from call index to outcome
(call `i` is the i-th invocation of `fn`, counting from 0). -/
def retryWithExponentialBackoff {T : Type} (op : Nat → Except JsError T)
    (cfg : RetryConfig) : RetryTrace T :=
  retryGo op cfg 0 cfg.initialDelayMs cfg.maxRetries

/-- The sequence of sleep durations produced when every attempt fails with a
retryable error, starting from delay `d`: `r` sleeps, each followed by the
capped exponential update. -/
def cappedDelays (cfg : RetryConfig) : Nat → Nat → List Nat
  | _, 0 => []
  | d, r + 1 => d :: cappedDelays cfg (min (d * cfg.backoffMultiplier) cfg.maxDelayMs) r

/-!
Regular-expression engine for the tool-call enforcer.  The four patterns in
`toolCallEnforcer.ts` use only: ordered alternation, concatenation, greedy
`?` on a group, greedy `+` on a single character class, one capturing group
(always a greedy `+` of a class), and case-insensitive literals.  `mtry`
enumerates the engine's alternatives in JavaScript backtracking priority
order (alternation left first, greedy quantifiers longest first); the first
element of the list is the match JavaScript `String.prototype.match` (no `g`
flag) reports at that start position, and `reFirstCapture` scans start
positions left to right as an unanchored JavaScript regex does.
-/

/-- Regex abstract syntax: `cls` a single character satisfying a predicate,
`seq`/`alt` concatenation and ordered alternation, `opt` greedy `?`,
`plus` greedy `+` of a character class, `cap` the capturing group
`(` class `+` `)`. -/
inductive RE where
  | eps : RE
  | cls : (Char → Bool) → RE
  | seq : RE → RE → RE
  | alt : RE → RE → RE
  | opt : RE → RE
  | plus : (Char → Bool) → RE
  | cap : (Char → Bool) → RE

/-- All ways a greedy `+` of class `p` can split the input into a non-empty
consumed prefix (every character satisfying `p`) and a remainder, longest
prefix first — the order a backtracking greedy quantifier explores. -/
def plusSplits (p : Char → Bool) : List Char → List (List Char × List Char)
  | [] => []
  | c :: s =>
    if p c then
      ((plusSplits p s).map (fun t => (c :: t.1, t.2))) ++ [([c], s)]
    else []

/-- Enumerate the ways `r` can match a prefix of the input, in backtracking
priority order; each result is the remaining input paired with the contents
of the capturing group if it participated in the match. -/
def mtry : RE → List Char → List (List Char × Option (List Char))
  | RE.eps, s => [(s, none)]
  | RE.cls p, [] => (fun _ => []) p
  | RE.cls p, c :: s => if p c then [(s, none)] else []
  | RE.seq a b, s =>
    (mtry a s).flatMap (fun r =>
      (mtry b r.1).map (fun q => (q.1, match r.2 with
        | some t => some t
        | none => q.2)))
  | RE.alt a b, s => mtry a s ++ mtry b s
  | RE.opt a, s => mtry a s ++ [(s, none)]
  | RE.plus p, s => (plusSplits p s).map (fun t => (t.2, none))
  | RE.cap p, s => (plusSplits p s).map (fun t => (t.2, some t.1))

/-- JavaScript `text.match(re)` for an unanchored regex: try each start
position left to right, and at the first position where the regex matches,
report the capturing group (`some cap`); `none` means no match anywhere. -/
def reFirstCapture (r : RE) : List Char → Option (Option (List Char))
  | [] =>
    match (mtry r []).head? with
    | some q => some q.2
    | none => none
  | c :: rest =>
    match (mtry r (c :: rest)).head? with
    | some q => some q.2
    | none => reFirstCapture r rest

/-- JavaScript `\s`: whitespace character class (common members). -/
def isJsSpace (c : Char) : Bool :=
  c == ' ' || c == '\t' || c == '\n' || c == '\r' ||
  c == '\x0b' || c == '\x0c' || c == '\xa0'

/-- The optional-delimiter character class of the patterns: a backtick or
a double quote. -/
def isTickQuote (c : Char) : Bool :=
  c == '\x60' || c == '"'

/-- The negated character class matched inside the capturing group: any
character other than a backtick, a double quote, or a newline. -/
def isUriChar (c : Char) : Bool :=
  !(c == '\x60' || c == '"' || c == '\n')

/-- One case-insensitive character of a pattern literal (`i` flag):
the pattern character is given in lowercase and the input character is
lowercased before comparison. -/
def charCI (ch : Char) : RE :=
  RE.cls (fun c => c.toLower == ch)

/-- A case-insensitive literal, compiled to a sequence of `charCI`. -/
def litCI (s : String) : RE :=
  s.data.foldr (fun ch r => RE.seq (charCI ch) r) RE.eps

/-- Greedy `\s+`. -/
def wsp : RE := RE.plus isJsSpace

/-- The shared suffix of every pattern: optional opening backtick or quote,
the capturing group of one or more non-backtick/quote/newline characters,
and an optional closing backtick or quote. -/
def quotedCapture : RE :=
  RE.seq (RE.opt (RE.cls isTickQuote))
    (RE.seq (RE.cap isUriChar) (RE.opt (RE.cls isTickQuote)))

/-- The first pattern of `toolCallPatterns`: run/execute/start, whitespace,
an optional literal "the whitespace command whitespace", then the quoted
capture. -/
def runPattern : RE :=
  RE.seq (RE.alt (litCI "run") (RE.alt (litCI "execute") (litCI "start")))
    (RE.seq wsp
      (RE.seq (RE.opt (RE.seq (litCI "the")
          (RE.seq wsp (RE.seq (litCI "command") wsp))))
        quotedCapture))

/-- The second pattern of `toolCallPatterns`: create, optional "a",
optional "new", "file", optional "called"/"named", then the quoted
capture. -/
def createFilePattern : RE :=
  RE.seq (litCI "create")
    (RE.seq wsp
      (RE.seq (RE.opt (RE.seq (litCI "a") wsp))
        (RE.seq (RE.opt (RE.seq (litCI "new") wsp))
          (RE.seq (litCI "file")
            (RE.seq wsp
              (RE.seq (RE.opt (RE.alt (RE.seq (litCI "called") wsp)
                  (RE.seq (litCI "named") wsp)))
                quotedCapture))))))

/-- The shared tail "file whitespace quotedCapture" of the edit and read
patterns. -/
def fileTail : RE :=
  RE.seq (litCI "file") (RE.seq wsp quotedCapture)

/-- The third pattern of `toolCallPatterns`: edit, optional "the", then
the file tail. -/
def editFilePattern : RE :=
  RE.seq (litCI "edit")
    (RE.seq wsp (RE.seq (RE.opt (RE.seq (litCI "the") wsp)) fileTail))

/-- The fourth pattern of `toolCallPatterns`: read, optional "the", then
the file tail. -/
def readFilePattern : RE :=
  RE.seq (litCI "read")
    (RE.seq wsp (RE.seq (RE.opt (RE.seq (litCI "the") wsp)) fileTail))

/-- JavaScript `String.prototype.trim`: drop whitespace from both ends. -/
def jsTrim (s : String) : String :=
  String.mk (((s.data.dropWhile isJsSpace).reverse.dropWhile isJsSpace).reverse)

/-- One entry of the `toolCallPatterns` table: the compiled regex, the tool
name, and the parameter extractor applied to the capturing group. -/
structure ToolCallPattern where
  pattern : RE
  toolName : String
  extractParams : List Char → List (String × String)

/-- The `toolCallPatterns` table from `toolCallEnforcer.ts`, in declaration
order; each extractor trims the captured text (`match[1].trim()`) and binds
it to `command` or `uri`. -/
def toolCallPatterns : List ToolCallPattern :=
  [⟨runPattern, "run_command", fun cap => [("command", jsTrim (String.mk cap))]⟩,
   ⟨createFilePattern, "create_file_or_folder", fun cap => [("uri", jsTrim (String.mk cap))]⟩,
   ⟨editFilePattern, "read_file", fun cap => [("uri", jsTrim (String.mk cap))]⟩,
   ⟨readFilePattern, "read_file", fun cap => [("uri", jsTrim (String.mk cap))]⟩]

/-- The `RawToolCallObj` returned by the enforcer: tool name, raw parameter
bag, the list of parameter keys already complete, the generated identifier,
and the done marker. -/
structure RawToolCallObj where
  name : String
  rawParams : List (String × String)
  doneParams : List String
  id : String
  isDone : Bool
deriving DecidableEq, Repr

/-- The `for (const {pattern, toolName, extractParams} of toolCallPatterns)`
loop of `enforceToolCall`: first pattern that matches wins, its parameters
are extracted from the capture, `doneParams` is `Object.keys(params)`, the
identifier is the freshly generated uuid, and `isDone` is `false`. -/
def tryPatterns (uuid : String) (fullText : String) :
    List ToolCallPattern → Option RawToolCallObj
  | [] => none
  | tp :: rest =>
    match reFirstCapture tp.pattern fullText.data with
    | some cap =>
      let params := tp.extractParams (cap.getD [])
      some ⟨tp.toolName, params, params.map Prod.fst, uuid, false⟩
    | none => tryPatterns uuid fullText rest

/-- The `enforceToolCall` function from `toolCallEnforcer.ts`.  The call to
`generateUuid()` is modelled by the `uuid` argument (the fresh identifier the
generator returns); `chatMode : Option String` models `string | null`. -/
def enforceToolCall (uuid : String) (fullText : String)
    (chatMode : Option String) : Option RawToolCallObj :=
  if chatMode != some "agent" then none
  else if fullText.length < 20 then none
  else tryPatterns uuid fullText toolCallPatterns

/-!
Chat sidebar submit guard, tool approval, and checkpoint ghosting, from
`react-types.d.ts`.  The `IChatThreadService` implementation itself is not
part of the shown sources (only its callers are), so its operations are
modelled from the specification where needed, marked as such below.
-/

/-- The truthy alternatives of `IsRunningType` (`false` is modelled by
`none` in an `Option RunState`): an LLM response is streaming, a tool is
executing, the thread is idle between steps of a turn, or it awaits the
user. -/
inductive RunState where
  | llm : RunState
  | tool : RunState
  | idle : RunState
  | awaitingUser : RunState
deriving DecidableEq, Repr

/-- JavaScript truthiness of a `string | undefined` value: present and
non-empty. -/
def strTruthy (o : Option String) : Bool :=
  match o with
  | some s => s != ""
  | none => false

/-- JavaScript `a || b` on an optional string: `a` if truthy, else `b`. -/
def strOrElse (o : Option String) (b : String) : String :=
  if strTruthy o then o.getD "" else b

/-- The argument record passed to `addUserMessageAndStreamResponse` when the
sidebar submit handler goes through. -/
structure SubmitCall where
  userMessage : String
  threadId : String
deriving DecidableEq, Repr

/-- The `onSubmit` callback of the chat sidebar (react-types.d.ts lines
3845-3870): return early when disabled (unless force-submitted) or when
`isRunning` is truthy; otherwise call `addUserMessageAndStreamResponse` with
`_forceSubmit || textAreaRef.current?.value || ''` and the current thread id.
The result `none` models an early return in which no user message is
submitted and the service is not called. -/
def onSubmit (isDisabled : Bool) (isRunning : Option RunState)
    (currentThreadId : String) (textAreaValue : Option String)
    (forceSubmit : Option String) : Option SubmitCall :=
  if isDisabled && !(strTruthy forceSubmit) then none
  else if isRunning.isSome then none
  else some ⟨strOrElse forceSubmit (strOrElse textAreaValue ""), currentThreadId⟩

/-- Lifecycle states of a tool message (`toolMessage.type` in
`react-types.d.ts`): awaiting approval, executing, and the terminal
states. -/
inductive ToolMsgState where
  | toolRequest : ToolMsgState
  | runningNow : ToolMsgState
  | success : ToolMsgState
  | toolError : ToolMsgState
  | rejected : ToolMsgState
  | invalidParams : ToolMsgState
deriving DecidableEq, Repr

/-- A thread message: the role union {user, assistant, tool,
interrupted_streaming_tool, checkpoint}, with tool messages carrying their
lifecycle state and tool name. -/
inductive ChatMessage where
  | user : String → ChatMessage
  | assistant : String → ChatMessage
  | tool : ToolMsgState → String → ChatMessage
  | interruptedStreamingTool : String → ChatMessage
  | checkpoint : ChatMessage
deriving DecidableEq, Repr

/-- A chat thread: its ordered message list and the current checkpoint
index (`currCheckpointIdx`), absent when the checkpoint is treated as the
last message. -/
structure ChatThread where
  messages : List ChatMessage
  currCheckpointIdx : Option Nat
deriving DecidableEq, Repr

/-- State of the latest (last) tool message of a message list, if any. -/
def latestToolState : List ChatMessage → Option ToolMsgState
  | [] => none
  | m :: rest =>
    match latestToolState rest with
    | some st => some st
    | none =>
      match m with
      | ChatMessage.tool st _ => some st
      | _ => none

/-- Replace the state of the latest tool message by `f` applied to it,
leaving every other message unchanged. -/
def updateLatestTool (f : ToolMsgState → ToolMsgState) :
    List ChatMessage → List ChatMessage
  | [] => []
  | m :: rest =>
    match latestToolState rest with
    | some _ => m :: updateLatestTool f rest
    | none =>
      match m with
      | ChatMessage.tool st n => ChatMessage.tool (f st) n :: rest
      | other => other :: rest

/-- Modelled from the spec: `approveLatestToolRequest(threadId)` of
`IChatThreadService`, whose implementation is not among the shown sources
(only its caller `ToolRequestAcceptRejectButtons` is).  Per the spec it is
"valid only when the thread's latest tool message is in `tool_request`
state; transitions it to `running_now`", and "calling on a thread not
awaiting approval is a no-op (not an error)". -/
def approveLatestToolRequest (t : ChatThread) : ChatThread :=
  match latestToolState t.messages with
  | some ToolMsgState.toolRequest =>
    { t with messages := updateLatestTool (fun _ => ToolMsgState.runningNow) t.messages }
  | _ => t

/-- Modelled from the spec: `rejectLatestToolRequest(threadId)` of
`IChatThreadService` (implementation not among the shown sources).  Per the
spec it transitions a latest `tool_request` tool message to `rejected` and
is a no-op otherwise. -/
def rejectLatestToolRequest (t : ChatThread) : ChatThread :=
  match latestToolState t.messages with
  | some ToolMsgState.toolRequest =>
    { t with messages := updateLatestTool (fun _ => ToolMsgState.rejected) t.messages }
  | _ => t

/-- The ghosting predicate of `_ChatBubble` (react-types.d.ts line 3413):
`messageIdx > (currCheckpointIdx ?? Infinity) && !chatIsRunning` — a missing
checkpoint index behaves like infinity, so nothing is ghosted. -/
def isCheckpointGhost (messageIdx : Nat) (currCheckpointIdx : Option Nat)
    (chatIsRunning : Bool) : Bool :=
  (match currCheckpointIdx with
   | some c => decide (messageIdx > c)
   | none => false) && !chatIsRunning

/-- The set of ghosted message indices of a thread with `numMessages`
messages, as rendered by the chat bubbles. -/
def ghostedSet (numMessages : Nat) (currCheckpointIdx : Option Nat)
    (chatIsRunning : Bool) : List Nat :=
  (List.range numMessages).filter
    (fun i => isCheckpointGhost i currCheckpointIdx chatIsRunning)

/-- Modelled from the spec: `jumpToCheckpointBeforeMessageIdx` of
`IChatThreadService`, whose implementation is not among the shown sources
(only its caller in the `Checkpoint` component is).  Per the spec it "moves
the thread's checkpoint pointer; messages after the checkpoint are rendered
as ghosted (visually deemphasized) but not deleted, preserving full
history": the pointer becomes the given message index and the message list
is untouched. -/
def jumpToCheckpointBeforeMessageIdx (t : ChatThread) (messageIdx : Nat) :
    ChatThread :=
  { t with currCheckpointIdx := some messageIdx }

/-!
The spec-side retryability classification, for the refinement comparison of
claim C6: `claimRetryableSpec` transcribes the claim word for word (a
numeric status field contained in the retryable codes, or a nested response
status so contained, or the substring "429" in a string message), and
`amendedRetryableSpec` is the same with the status fields additionally
required to be non-zero, which is what the JavaScript truthiness guards in
the source enforce.
-/

/-- The claim's wording of the retryable-error classification: a numeric
`status` field contained in `codes`, a nested `response.status` contained
in `codes`, or the substring "429" occurring in a string `message`. -/
def claimRetryableSpec (e : JsError) (codes : List Nat) : Bool :=
  (match e.status with
   | some n => codes.contains n
   | none => false) ||
  (match e.responseStatus with
   | some n => codes.contains n
   | none => false) ||
  (match e.message with
   | some m => strIncludes m "429"
   | none => false)

/-- The amended wording: as the claim, but the `status` and
`response.status` fields must be non-zero (a zero status is falsy in
JavaScript and is treated as absent). -/
def amendedRetryableSpec (e : JsError) (codes : List Nat) : Bool :=
  (match e.status with
   | some n => n != 0 && codes.contains n
   | none => false) ||
  (match e.responseStatus with
   | some n => n != 0 && codes.contains n
   | none => false) ||
  (match e.message with
   | some m => strIncludes m "429"
   | none => false)

/-!
Helper lemmas about the retry loop.
-/

/-- A successful call ends the loop at once with no sleep. -/
theorem retryGo_ok {T : Type} (op : Nat → Except JsError T) (cfg : RetryConfig)
    (attempt delayMs remaining : Nat) (v : T) (hop : op attempt = Except.ok v) :
    retryGo op cfg attempt delayMs remaining = ⟨Except.ok v, [], 1⟩ := by
  cases remaining with
  | zero => simp [retryGo, hop]
  | succ r => simp [retryGo, hop]

/-- A retryable failure before the last attempt sleeps `delayMs` and
continues with the capped exponential update. -/
theorem retryGo_step {T : Type} (op : Nat → Except JsError T) (cfg : RetryConfig)
    (attempt delayMs remaining : Nat) (e : JsError)
    (hop : op attempt = Except.error e)
    (hr : isRetryableError e cfg.retryableStatusCodes = true) :
    retryGo op cfg attempt delayMs (remaining + 1) =
      ⟨(retryGo op cfg (attempt + 1)
          (min (delayMs * cfg.backoffMultiplier) cfg.maxDelayMs) remaining).result,
       delayMs :: (retryGo op cfg (attempt + 1)
          (min (delayMs * cfg.backoffMultiplier) cfg.maxDelayMs) remaining).sleeps,
       (retryGo op cfg (attempt + 1)
          (min (delayMs * cfg.backoffMultiplier) cfg.maxDelayMs) remaining).calls + 1⟩ := by
  simp [retryGo, hop, hr]

/-- When every attempt fails with a retryable error, the loop runs all the
way: the trace records the error of the last attempt, the capped delay
sequence, and one call per attempt. -/
theorem retryGo_allFail {T : Type} (op : Nat → Except JsError T) (cfg : RetryConfig)
    (errs : Nat → JsError)
    (hop : ∀ i, op i = Except.error (errs i))
    (hr : ∀ i, isRetryableError (errs i) cfg.retryableStatusCodes = true) :
    ∀ remaining attempt delayMs,
      retryGo op cfg attempt delayMs remaining =
        ⟨Except.error (errs (attempt + remaining)),
         cappedDelays cfg delayMs remaining, remaining + 1⟩ := by
  intro remaining
  induction remaining with
  | zero =>
    intro attempt delayMs
    simp [retryGo, hop attempt, cappedDelays]
  | succ r ih =>
    intro attempt delayMs
    rw [retryGo_step op cfg attempt delayMs r (errs attempt) (hop attempt) (hr attempt)]
    rw [ih (attempt + 1)]
    have harith : attempt + 1 + r = attempt + (r + 1) := by omega
    rw [harith]
    simp [cappedDelays]

/-- Every delay in the capped sequence stays at or below the cap, provided
the starting delay does. -/
theorem cappedDelays_le (cfg : RetryConfig) :
    ∀ (r d : Nat), d ≤ cfg.maxDelayMs →
      ∀ x ∈ cappedDelays cfg d r, x ≤ cfg.maxDelayMs := by
  intro r
  induction r with
  | zero => intro d _ x hx; simp [cappedDelays] at hx
  | succ k ih =>
    intro d hd x hx
    simp [cappedDelays] at hx
    rcases hx with rfl | hx
    · exact hd
    · exact ih _ (Nat.min_le_right _ _) x hx

/-- C3: an operation that fails with a retryable error on its first two
calls and succeeds on the third makes `retryWithExponentialBackoff` return
the success value after exactly two delayed retries — three invocations in
all, with the two sleeps equal to `initialDelayMs` and
`initialDelayMs * backoffMultiplier` (so the total delay is their sum),
whenever the configuration allows at least two retries and the second delay
is below the cap. -/
theorem retry_two_failures_then_success {T : Type}
    (op : Nat → Except JsError T) (cfg : RetryConfig) (e0 e1 : JsError) (v : T)
    (hop0 : op 0 = Except.error e0) (hop1 : op 1 = Except.error e1)
    (hop2 : op 2 = Except.ok v)
    (hr0 : isRetryableError e0 cfg.retryableStatusCodes = true)
    (hr1 : isRetryableError e1 cfg.retryableStatusCodes = true)
    (hmax : 2 ≤ cfg.maxRetries)
    (hcap : cfg.initialDelayMs * cfg.backoffMultiplier ≤ cfg.maxDelayMs) :
    retryWithExponentialBackoff op cfg =
      ⟨Except.ok v,
       [cfg.initialDelayMs, cfg.initialDelayMs * cfg.backoffMultiplier], 3⟩ := by
  obtain ⟨k, hk⟩ : ∃ k, cfg.maxRetries = k + 1 + 1 := ⟨cfg.maxRetries - 2, by omega⟩
  unfold retryWithExponentialBackoff
  rw [hk]
  rw [retryGo_step op cfg 0 cfg.initialDelayMs (k + 1) e0 hop0 hr0]
  rw [Nat.min_eq_left hcap]
  rw [retryGo_step op cfg 1 (cfg.initialDelayMs * cfg.backoffMultiplier) k e1 hop1 hr1]
  rw [retryGo_ok op cfg 2 _ k v hop2]

/-- Witness for C3 at the default configuration: two 429 failures then the
value 7, giving sleeps of 1000ms and 2000ms over three calls. -/
theorem retry_two_failures_then_success_witness :
    retryWithExponentialBackoff
        (fun i => if i < 2 then Except.error ⟨some 429, none, none⟩
                  else Except.ok (7 : Nat))
        defaultRetryConfig =
      ⟨Except.ok 7,
       [defaultRetryConfig.initialDelayMs,
        defaultRetryConfig.initialDelayMs * defaultRetryConfig.backoffMultiplier],
       3⟩ :=
  retry_two_failures_then_success
    (fun i => if i < 2 then Except.error ⟨some 429, none, none⟩ else Except.ok (7 : Nat))
    defaultRetryConfig ⟨some 429, none, none⟩ ⟨some 429, none, none⟩ 7
    rfl rfl rfl (by decide) (by decide) (by decide) (by decide)

/-- C4: an operation whose first failure is classified non-retryable makes
`retryWithExponentialBackoff` propagate that exact error immediately, with
no sleep and no further invocation. -/
theorem retry_nonretryable_propagates {T : Type}
    (op : Nat → Except JsError T) (cfg : RetryConfig) (e : JsError)
    (hop : op 0 = Except.error e)
    (hnr : isRetryableError e cfg.retryableStatusCodes = false) :
    retryWithExponentialBackoff op cfg = ⟨Except.error e, [], 1⟩ := by
  unfold retryWithExponentialBackoff
  cases cfg.maxRetries with
  | zero => simp [retryGo, hop]
  | succ m => simp [retryGo, hop, hnr]

/-- Witness for C4 at the default configuration: a 400 error propagates
after one call with no sleeps. -/
theorem retry_nonretryable_propagates_witness :
    retryWithExponentialBackoff
        (fun _ => (Except.error ⟨some 400, none, none⟩ : Except JsError Nat))
        defaultRetryConfig =
      ⟨Except.error ⟨some 400, none, none⟩, [], 1⟩ :=
  retry_nonretryable_propagates
    (fun _ => (Except.error ⟨some 400, none, none⟩ : Except JsError Nat))
    defaultRetryConfig ⟨some 400, none, none⟩ rfl (by decide)

/-- C5: an operation that fails with a retryable error on every attempt is
invoked exactly `maxRetries + 1` times, the error of the last attempt
propagates, and — whenever the initial delay respects the cap, as the
defaults do — every sleep is at most `maxDelayMs`. -/
theorem retry_exhausts_attempts {T : Type}
    (op : Nat → Except JsError T) (cfg : RetryConfig) (errs : Nat → JsError)
    (hop : ∀ i, op i = Except.error (errs i))
    (hr : ∀ i, isRetryableError (errs i) cfg.retryableStatusCodes = true) :
    (retryWithExponentialBackoff op cfg).calls = cfg.maxRetries + 1 ∧
    (retryWithExponentialBackoff op cfg).result = Except.error (errs cfg.maxRetries) ∧
    (cfg.initialDelayMs ≤ cfg.maxDelayMs →
      ∀ d ∈ (retryWithExponentialBackoff op cfg).sleeps, d ≤ cfg.maxDelayMs) := by
  unfold retryWithExponentialBackoff
  rw [retryGo_allFail op cfg errs hop hr cfg.maxRetries 0 cfg.initialDelayMs]
  refine ⟨rfl, by simp, ?_⟩
  intro hinit d hd
  exact cappedDelays_le cfg cfg.maxRetries cfg.initialDelayMs hinit d hd

/-- Witness for C5 at the default configuration: constant 429 failures give
4 calls, the last error propagated, and all sleeps at most 10000ms. -/
theorem retry_exhausts_attempts_witness :
    (retryWithExponentialBackoff
        (fun _ => (Except.error ⟨some 429, none, none⟩ : Except JsError Nat))
        defaultRetryConfig).calls = defaultRetryConfig.maxRetries + 1 ∧
    (retryWithExponentialBackoff
        (fun _ => (Except.error ⟨some 429, none, none⟩ : Except JsError Nat))
        defaultRetryConfig).result = Except.error ⟨some 429, none, none⟩ ∧
    (defaultRetryConfig.initialDelayMs ≤ defaultRetryConfig.maxDelayMs →
      ∀ d ∈ (retryWithExponentialBackoff
          (fun _ => (Except.error ⟨some 429, none, none⟩ : Except JsError Nat))
          defaultRetryConfig).sleeps, d ≤ defaultRetryConfig.maxDelayMs) :=
  retry_exhausts_attempts
    (fun _ => (Except.error ⟨some 429, none, none⟩ : Except JsError Nat))
    defaultRetryConfig (fun _ => ⟨some 429, none, none⟩)
    (fun _ => rfl) (fun _ => rfl)

/-- C6 counterexample: at the error `{status: 0}` with retryable codes
`[0]`, the claim's conditions hold (the numeric status field 0 is contained
in the codes) yet `isRetryableError` returns `false`, because `0` is falsy
in JavaScript and the `error?.status &&` guard short-circuits. -/
theorem isRetryableError_claim_counterexample :
    isRetryableError ⟨some 0, none, none⟩ [0] = false ∧
    claimRetryableSpec ⟨some 0, none, none⟩ [0] = true := by
  constructor
  · rfl
  · rfl

/-- C6 amended: `isRetryableError` agrees everywhere with the amended
classification, in which the `status` and `response.status` checks
additionally require the field to be non-zero. -/
theorem isRetryableError_eq_amendedSpec (e : JsError) (codes : List Nat) :
    isRetryableError e codes = amendedRetryableSpec e codes := by
  have key : ∀ m : String, (m != "" && strIncludes m "429") = strIncludes m "429" := by
    intro m
    by_cases hm : m = ""
    · subst hm; decide
    · simp [hm]
  obtain ⟨st, rs, msg⟩ := e
  cases msg with
  | none => rfl
  | some m =>
    unfold isRetryableError amendedRetryableSpec
    dsimp only
    rw [key m]

/-- Witness for C6's amended theorem at a concrete error and code list. -/
theorem isRetryableError_eq_amendedSpec_witness :
    isRetryableError ⟨some 429, none, none⟩ [429, 503, 504] =
      amendedRetryableSpec ⟨some 429, none, none⟩ [429, 503, 504] :=
  isRetryableError_eq_amendedSpec ⟨some 429, none, none⟩ [429, 503, 504]

/-!
Helper lemmas about the pattern loop of `enforceToolCall`.
-/

/-- If no pattern of the list matches, the loop returns `none`. -/
theorem tryPatterns_eq_none (uuid fullText : String) :
    ∀ l : List ToolCallPattern,
      (∀ tp ∈ l, reFirstCapture tp.pattern fullText.data = none) →
      tryPatterns uuid fullText l = none := by
  intro l
  induction l with
  | nil => intro _; rfl
  | cons tp rest ih =>
    intro h
    have h0 := h tp (List.mem_cons_self tp rest)
    have hrest := ih (fun x hx => h x (List.mem_cons_of_mem tp hx))
    simp [tryPatterns, h0, hrest]

/-- The loop returns the synthesized call of the first matching pattern:
if every pattern before index `i` fails and the pattern at `i` matches with
capture `cap`, the result is built from that pattern, with `doneParams` the
keys of the extracted parameters, the given uuid, and `isDone := false`. -/
theorem tryPatterns_first_match (uuid fullText : String) :
    ∀ (l : List ToolCallPattern) (i : Nat) (tpi : ToolCallPattern)
      (cap : Option (List Char)),
      (∀ j, j < i → ∀ tp, l[j]? = some tp →
        reFirstCapture tp.pattern fullText.data = none) →
      l[i]? = some tpi →
      reFirstCapture tpi.pattern fullText.data = some cap →
      tryPatterns uuid fullText l =
        some ⟨tpi.toolName, tpi.extractParams (cap.getD []),
              (tpi.extractParams (cap.getD [])).map Prod.fst, uuid, false⟩ := by
  intro l
  induction l with
  | nil =>
    intro i tpi cap _ hi _
    simp at hi
  | cons tp rest ih =>
    intro i tpi cap hprev hi hcap
    cases i with
    | zero =>
      simp at hi
      subst hi
      simp [tryPatterns, hcap]
    | succ k =>
      have h0 : reFirstCapture tp.pattern fullText.data = none :=
        hprev 0 (Nat.succ_pos k) tp (by simp)
      have hi2 : rest[k]? = some tpi := by simpa using hi
      have hprev2 : ∀ j, j < k → ∀ tp2, rest[j]? = some tp2 →
          reFirstCapture tp2.pattern fullText.data = none := by
        intro j hj tp2 htp2
        exact hprev (j + 1) (Nat.succ_lt_succ hj) tp2 (by simpa using htp2)
      simp [tryPatterns, h0]
      exact ih k tpi cap hprev2 hi2 hcap

/-- Any call the loop returns is built from some pattern of the list, with
`doneParams` the extracted keys, the given uuid, and `isDone := false`. -/
theorem tryPatterns_some_shape (uuid fullText : String) :
    ∀ (l : List ToolCallPattern) (obj : RawToolCallObj),
      tryPatterns uuid fullText l = some obj →
      ∃ tp ∈ l, ∃ cap : List Char,
        obj = ⟨tp.toolName, tp.extractParams cap,
               (tp.extractParams cap).map Prod.fst, uuid, false⟩ := by
  intro l
  induction l with
  | nil => intro obj h; simp [tryPatterns] at h
  | cons tp rest ih =>
    intro obj h
    rw [tryPatterns] at h
    cases hcap : reFirstCapture tp.pattern fullText.data with
    | some cap =>
      rw [hcap] at h
      simp at h
      exact ⟨tp, List.mem_cons_self tp rest, cap.getD [], h.symm⟩
    | none =>
      rw [hcap] at h
      obtain ⟨tp2, htp2, cap2, hobj⟩ := ih obj h
      exact ⟨tp2, List.mem_cons_of_mem tp htp2, cap2, hobj⟩

/-- C7: outside agent mode, or on text shorter than 20 characters, the
enforcer returns `null` and synthesizes no tool-call candidate. -/
theorem enforceToolCall_skip (uuid fullText : String) (chatMode : Option String)
    (h : chatMode ≠ some "agent" ∨ fullText.length < 20) :
    enforceToolCall uuid fullText chatMode = none := by
  unfold enforceToolCall
  rcases h with h | h
  · rw [if_pos]
    simpa using h
  · by_cases hm : chatMode != some "agent"
    · rw [if_pos hm]
    · rw [if_neg hm, if_pos h]

/-- Witness for C7: a clear command phrase is ignored outside agent mode. -/
theorem enforceToolCall_skip_witness :
    enforceToolCall "u0" "please run the server for me" (some "normal") = none :=
  enforceToolCall_skip "u0" "please run the server for me" (some "normal")
    (Or.inl (by decide))

/-- C8: in agent mode on text of length at least 20, the enforcer walks the
pattern table in declared order — if no pattern matches it returns `null`,
and if the patterns before index `i` fail while the pattern at `i` matches,
it returns the call synthesized from that pattern (later patterns are not
consulted), carrying the freshly generated identifier and `isDone := false`. -/
theorem enforceToolCall_first_pattern (uuid fullText : String)
    (chatMode : Option String) (hmode : chatMode = some "agent")
    (hlen : 20 ≤ fullText.length) :
    ((∀ tp ∈ toolCallPatterns, reFirstCapture tp.pattern fullText.data = none) →
      enforceToolCall uuid fullText chatMode = none) ∧
    (∀ (i : Nat) (tpi : ToolCallPattern) (cap : Option (List Char)),
      (∀ j, j < i → ∀ tp, toolCallPatterns[j]? = some tp →
        reFirstCapture tp.pattern fullText.data = none) →
      toolCallPatterns[i]? = some tpi →
      reFirstCapture tpi.pattern fullText.data = some cap →
      enforceToolCall uuid fullText chatMode =
        some ⟨tpi.toolName, tpi.extractParams (cap.getD []),
              (tpi.extractParams (cap.getD [])).map Prod.fst, uuid, false⟩) := by
  have hunfold : enforceToolCall uuid fullText chatMode =
      tryPatterns uuid fullText toolCallPatterns := by
    unfold enforceToolCall
    subst hmode
    rw [if_neg (by simp), if_neg (by omega)]
  constructor
  · intro hnone
    rw [hunfold]
    exact tryPatterns_eq_none uuid fullText toolCallPatterns hnone
  · intro i tpi cap hprev hi hcap
    rw [hunfold]
    exact tryPatterns_first_match uuid fullText toolCallPatterns i tpi cap hprev hi hcap

/-- Witness for C8: in agent mode, "please run `npm start` for me" is
synthesized into a `run_command` call by the first pattern, with the given
fresh identifier and `isDone := false`. -/
theorem enforceToolCall_first_pattern_witness :
    enforceToolCall "u1" "please run `npm start` for me" (some "agent") =
      some ⟨"run_command", [("command", "npm start")], ["command"], "u1", false⟩ := by
  have h := (enforceToolCall_first_pattern "u1" "please run `npm start` for me"
      (some "agent") rfl (by decide)).2 0
      ⟨runPattern, "run_command", fun cap => [("command", jsTrim (String.mk cap))]⟩
      (some "npm start".data)
      (fun j hj _ _ => absurd hj (Nat.not_lt_zero j))
      (by rfl) (by decide)
  rw [h]
  decide

/-- C10: every candidate the enforcer returns has its tool name drawn from
{run_command, create_file_or_folder, read_file}, its `doneParams` equal to
the keys of its extracted parameters, and `isDone := false`; moreover the
pattern table maps, in order, to the tool names [run_command,
create_file_or_folder, read_file, read_file] — in particular the
"edit the file" pattern (third entry) synthesizes a `read_file` call. -/
theorem enforceToolCall_shape (uuid fullText : String) (chatMode : Option String)
    (obj : RawToolCallObj)
    (h : enforceToolCall uuid fullText chatMode = some obj) :
    (obj.name = "run_command" ∨ obj.name = "create_file_or_folder" ∨
      obj.name = "read_file") ∧
    obj.doneParams = obj.rawParams.map Prod.fst ∧
    obj.isDone = false ∧
    toolCallPatterns.map ToolCallPattern.toolName =
      ["run_command", "create_file_or_folder", "read_file", "read_file"] := by
  have htry : tryPatterns uuid fullText toolCallPatterns = some obj := by
    unfold enforceToolCall at h
    by_cases h1 : (chatMode != some "agent") = true
    · rw [if_pos h1] at h
      exact absurd h (by simp)
    · rw [if_neg h1] at h
      by_cases h2 : fullText.length < 20
      · rw [if_pos h2] at h
        exact absurd h (by simp)
      · rw [if_neg h2] at h
        exact h
  obtain ⟨tp, htp, cap, hobj⟩ :=
    tryPatterns_some_shape uuid fullText toolCallPatterns obj htry
  subst hobj
  refine ⟨?_, rfl, rfl, rfl⟩
  simp only [toolCallPatterns, List.mem_cons, List.not_mem_nil, or_false] at htp
  rcases htp with rfl | rfl | rfl | rfl <;> simp

/-- Witness for C10 at the "edit the file" phrasing: the synthesized call
is a `read_file` call with `doneParams = [uri]` and `isDone := false`. -/
theorem enforceToolCall_shape_witness :
    ((⟨"read_file", [("uri", "src/main.ts now")], ["uri"], "id0", false⟩ :
        RawToolCallObj).name = "run_command" ∨
     (⟨"read_file", [("uri", "src/main.ts now")], ["uri"], "id0", false⟩ :
        RawToolCallObj).name = "create_file_or_folder" ∨
     (⟨"read_file", [("uri", "src/main.ts now")], ["uri"], "id0", false⟩ :
        RawToolCallObj).name = "read_file") ∧
    (⟨"read_file", [("uri", "src/main.ts now")], ["uri"], "id0", false⟩ :
        RawToolCallObj).doneParams =
      (⟨"read_file", [("uri", "src/main.ts now")], ["uri"], "id0", false⟩ :
        RawToolCallObj).rawParams.map Prod.fst ∧
    (⟨"read_file", [("uri", "src/main.ts now")], ["uri"], "id0", false⟩ :
        RawToolCallObj).isDone = false ∧
    toolCallPatterns.map ToolCallPattern.toolName =
      ["run_command", "create_file_or_folder", "read_file", "read_file"] :=
  enforceToolCall_shape "id0" "please edit the file src/main.ts now" (some "agent")
    ⟨"read_file", [("uri", "src/main.ts now")], ["uri"], "id0", false⟩ (by decide)

/-- C1: while the thread's stream state `isRunning` is truthy, the sidebar
submit handler returns early: no user message is submitted and
`addUserMessageAndStreamResponse` is not called, so no new turn starts. -/
theorem onSubmit_rejected_while_running (isDisabled : Bool)
    (isRunning : Option RunState) (tid : String)
    (textAreaValue forceSubmit : Option String)
    (h : isRunning ≠ none) :
    onSubmit isDisabled isRunning tid textAreaValue forceSubmit = none := by
  unfold onSubmit
  have hs : isRunning.isSome = true := Option.isSome_iff_ne_none.mpr h
  by_cases h1 : (isDisabled && !(strTruthy forceSubmit)) = true
  · rw [if_pos h1]
  · rw [if_neg h1, if_pos hs]

/-- Witness for C1: an enabled sidebar with text typed still submits
nothing while an LLM turn is streaming. -/
theorem onSubmit_rejected_while_running_witness :
    onSubmit false (some RunState.llm) "thread-1" (some "hello world") none = none :=
  onSubmit_rejected_while_running false (some RunState.llm) "thread-1"
    (some "hello world") none (by simp)

/-- Applying `updateLatestTool` maps the state of the latest tool message
through `f` and reports it accordingly. -/
theorem latestToolState_update (f : ToolMsgState → ToolMsgState) :
    ∀ msgs : List ChatMessage,
      latestToolState (updateLatestTool f msgs) = (latestToolState msgs).map f := by
  intro msgs
  induction msgs with
  | nil => rfl
  | cons m rest ih =>
    cases hrest : latestToolState rest with
    | some st => simp [updateLatestTool, latestToolState, hrest, ih]
    | none =>
      cases m with
      | user s => simp [updateLatestTool, latestToolState, hrest]
      | assistant s => simp [updateLatestTool, latestToolState, hrest]
      | tool st n => simp [updateLatestTool, latestToolState, hrest]
      | interruptedStreamingTool n => simp [updateLatestTool, latestToolState, hrest]
      | checkpoint => simp [updateLatestTool, latestToolState, hrest]

/-- When the latest tool message awaits approval, approving rewrites it via
`updateLatestTool` to `running_now`. -/
theorem approve_of_toolRequest (t : ChatThread)
    (h : latestToolState t.messages = some ToolMsgState.toolRequest) :
    approveLatestToolRequest t =
      { t with messages :=
          updateLatestTool (fun _ => ToolMsgState.runningNow) t.messages } := by
  unfold approveLatestToolRequest
  rw [h]

/-- When the latest tool message awaits approval, rejecting rewrites it via
`updateLatestTool` to `rejected`. -/
theorem reject_of_toolRequest (t : ChatThread)
    (h : latestToolState t.messages = some ToolMsgState.toolRequest) :
    rejectLatestToolRequest t =
      { t with messages :=
          updateLatestTool (fun _ => ToolMsgState.rejected) t.messages } := by
  unfold rejectLatestToolRequest
  rw [h]

/-- C2: on a thread whose latest tool message is not awaiting approval,
approving and rejecting are both no-ops (the thread, including every
message state, is unchanged, and being total functions they raise nothing);
when it is awaiting approval, approval moves it to `running_now` and
rejection moves it to `rejected`. -/
theorem toolRequest_approve_reject (t : ChatThread) :
    (latestToolState t.messages ≠ some ToolMsgState.toolRequest →
      approveLatestToolRequest t = t ∧ rejectLatestToolRequest t = t) ∧
    (latestToolState t.messages = some ToolMsgState.toolRequest →
      latestToolState (approveLatestToolRequest t).messages =
        some ToolMsgState.runningNow ∧
      latestToolState (rejectLatestToolRequest t).messages =
        some ToolMsgState.rejected) := by
  constructor
  · intro h
    constructor
    · unfold approveLatestToolRequest
      split
      · rename_i hst
        exact absurd hst h
      · rfl
    · unfold rejectLatestToolRequest
      split
      · rename_i hst
        exact absurd hst h
      · rfl
  · intro h
    constructor
    · rw [approve_of_toolRequest t h]
      show latestToolState (updateLatestTool (fun _ => ToolMsgState.runningNow) t.messages) =
        some ToolMsgState.runningNow
      rw [latestToolState_update, h]
      rfl
    · rw [reject_of_toolRequest t h]
      show latestToolState (updateLatestTool (fun _ => ToolMsgState.rejected) t.messages) =
        some ToolMsgState.rejected
      rw [latestToolState_update, h]
      rfl

/-- Witness for C2: a thread whose latest tool message already succeeded is
left untouched by both operations, and a thread awaiting approval moves to
`running_now` or `rejected`. -/
theorem toolRequest_approve_reject_witness :
    (approveLatestToolRequest
        ⟨[ChatMessage.user "hi", ChatMessage.tool ToolMsgState.success "read_file"], none⟩ =
      ⟨[ChatMessage.user "hi", ChatMessage.tool ToolMsgState.success "read_file"], none⟩ ∧
     rejectLatestToolRequest
        ⟨[ChatMessage.user "hi", ChatMessage.tool ToolMsgState.success "read_file"], none⟩ =
      ⟨[ChatMessage.user "hi", ChatMessage.tool ToolMsgState.success "read_file"], none⟩) ∧
    (latestToolState (approveLatestToolRequest
        ⟨[ChatMessage.tool ToolMsgState.toolRequest "run_command"], none⟩).messages =
      some ToolMsgState.runningNow ∧
     latestToolState (rejectLatestToolRequest
        ⟨[ChatMessage.tool ToolMsgState.toolRequest "run_command"], none⟩).messages =
      some ToolMsgState.rejected) :=
  ⟨(toolRequest_approve_reject
      ⟨[ChatMessage.user "hi", ChatMessage.tool ToolMsgState.success "read_file"], none⟩).1
      (by decide),
   (toolRequest_approve_reject
      ⟨[ChatMessage.tool ToolMsgState.toolRequest "run_command"], none⟩).2
      (by decide)⟩

/-- C9: jumping to a checkpoint leaves the message list intact; after the
jump a message index is ghosted iff it lies strictly beyond the checkpoint
index while the chat is not running; and jumping twice with the same index
yields the same ghosted-message set as jumping once. -/
theorem checkpoint_jump_ghosting (t : ChatThread) (i j n : Nat) (running : Bool) :
    (jumpToCheckpointBeforeMessageIdx t i).messages = t.messages ∧
    (isCheckpointGhost j
        (jumpToCheckpointBeforeMessageIdx t i).currCheckpointIdx running = true ↔
      i < j ∧ running = false) ∧
    ghostedSet n
        (jumpToCheckpointBeforeMessageIdx
          (jumpToCheckpointBeforeMessageIdx t i) i).currCheckpointIdx running =
      ghostedSet n (jumpToCheckpointBeforeMessageIdx t i).currCheckpointIdx running := by
  refine ⟨rfl, ?_, rfl⟩
  simp [jumpToCheckpointBeforeMessageIdx, isCheckpointGhost]

/-- Witness for C9 at a concrete thread, checkpoint index, and message
index. -/
theorem checkpoint_jump_ghosting_witness :
    (jumpToCheckpointBeforeMessageIdx
        ⟨[ChatMessage.user "a", ChatMessage.assistant "b"], none⟩ 0).messages =
      [ChatMessage.user "a", ChatMessage.assistant "b"] ∧
    (isCheckpointGhost 1
        (jumpToCheckpointBeforeMessageIdx
          ⟨[ChatMessage.user "a", ChatMessage.assistant "b"], none⟩ 0).currCheckpointIdx
        false = true ↔ 0 < 1 ∧ false = false) ∧
    ghostedSet 2
        (jumpToCheckpointBeforeMessageIdx
          (jumpToCheckpointBeforeMessageIdx
            ⟨[ChatMessage.user "a", ChatMessage.assistant "b"], none⟩ 0) 0).currCheckpointIdx
        false =
      ghostedSet 2
        (jumpToCheckpointBeforeMessageIdx
          ⟨[ChatMessage.user "a", ChatMessage.assistant "b"], none⟩ 0).currCheckpointIdx
        false :=
  checkpoint_jump_ghosting ⟨[ChatMessage.user "a", ChatMessage.assistant "b"], none⟩ 0 1 2 false
